import Mathlib

/-!
Verification development for the remote-browser-session core of the
`automated` repository.

Part 1 embeds the Session Admission Controller
(`BrowserbaseSessionLimiter` in `src/apps/cua-agent/examples.ts`).
Part 2 embeds the CDP Protocol Bridge command/response correlation
(`src/unnamed/part_002`, `useBrowserCDP`).
Part 3 embeds the Interaction Synthesizer (`addInteraction`,
`handleKeydown`, the click handler in the same file).

Times are modelled as `Int` milliseconds (`Date.now()` values); JS `Set`
objects are modelled as duplicate-free lists built with guarded insertion;
the `Map<number, PendingRequest>` of in-flight commands is modelled by its
key set (the resolver pair of an entry is identified by its key).
-/

namespace Automated

/-! ## Part 1: Session Admission Controller

`src/apps/cua-agent/examples.ts`, class `BrowserbaseSessionLimiter`. -/

def DEFAULT_MAX_CREATES_PER_MINUTE : Nat := 20

def DEFAULT_MAX_CONCURRENT_SESSIONS : Nat := 25

def CREATE_WINDOW_MS : Int := 60000

/-- One limiter state.  `leases` holds one `finalized` flag per granted
lease, in grant order (source: the `finalized` local of `createLease`);
the queue stores the `source` strings of waiting requests. -/
structure LimiterState where
  maxCreatesPerMinute : Nat
  maxConcurrentSessions : Nat
  createTimestamps : List Int
  activeSessionIds : List String
  pendingReservations : Nat
  queue : List String
  leases : List Bool
  deriving DecidableEq

/-- JS `Set.add`: insert if absent (`activeSessionIds.add(sessionId)`). -/
def insertSession (sid : String) (l : List String) : List String :=
  if sid ∈ l then l else l ++ [sid]

/-- `pruneCreateTimestamps`: `while (ts.length > 0 && ts[0] <= cutoff) ts.shift()`
with `cutoff = now - CREATE_WINDOW_MS`. -/
def pruneCreateTimestamps (cutoff : Int) : List Int → List Int
  | [] => []
  | t :: rest => if t ≤ cutoff then pruneCreateTimestamps cutoff rest else t :: rest

def pruneState (now : Int) (s : LimiterState) : LimiterState :=
  { s with createTimestamps :=
      pruneCreateTimestamps (now - CREATE_WINDOW_MS) s.createTimestamps }

/-- `hasConcurrentCapacity`: `activeSessionIds.size + pendingReservations < maxConcurrentSessions`. -/
def hasConcurrentCapacity (s : LimiterState) : Bool :=
  s.activeSessionIds.length + s.pendingReservations < s.maxConcurrentSessions

/-- `canGrantNextLease`: `hasRateCapacity() && hasConcurrentCapacity()`.
`hasRateCapacity` prunes the window and then compares its length; the
pruned state is returned alongside the decision. -/
def canGrantNextLease (now : Int) (s : LimiterState) : LimiterState × Bool :=
  let s1 := pruneState now s
  (s1, decide (s1.createTimestamps.length < s1.maxCreatesPerMinute) &&
       hasConcurrentCapacity s1)

/-- The grant loop of `processQueue`:
`while (queue.length > 0 && canGrantNextLease()) { shift; pending += 1;
createTimestamps.push(Date.now()); resolve(createLease(source)) }`.
The fuel is the queue length, which bounds the number of iterations. -/
def processLoop : Nat → Int → LimiterState → LimiterState
  | 0, _, s => s
  | fuel + 1, now, s =>
    match s.queue with
    | [] => s
    | _ :: rest =>
      let p := canGrantNextLease now s
      if p.2 then
        processLoop fuel now
          { p.1 with
            queue := rest
            pendingReservations := p.1.pendingReservations + 1
            createTimestamps := p.1.createTimestamps ++ [now]
            leases := p.1.leases ++ [false] }
      else p.1

/-- `processQueue` (timer scheduling is modelled by explicit `tick`
events; `clearProcessTimer`/`scheduleWhenRateWindowOpens` only control
when a later `processQueue` runs and change no accounted state). -/
def processQueue (now : Int) (s : LimiterState) : LimiterState :=
  let s1 := pruneState now s
  processLoop s1.queue.length now s1

/-- `acquireCreateLease(source)`: push onto the queue, then `processQueue`. -/
def acquireCreateLease (source : String) (now : Int) (s : LimiterState) : LimiterState :=
  processQueue now { s with queue := s.queue ++ [source] }

/-- The `finalize(sessionId?)` closure of `createLease`, addressed by the
grant index of the lease: a no-op when already finalized, otherwise it
sets the flag, decrements `pendingReservations` (guarded at zero),
registers the session id when one is supplied, and reprocesses the queue. -/
def finalizeLease (i : Nat) (sessionId : Option String) (now : Int)
    (s : LimiterState) : LimiterState :=
  match s.leases[i]? with
  | some false =>
    let s1 := { s with
      leases := s.leases.set i true
      pendingReservations := s.pendingReservations - 1 }
    let s2 := match sessionId with
      | some sid => { s1 with activeSessionIds := insertSession sid s1.activeSessionIds }
      | none => s1
    processQueue now s2
  | _ => s

/-- `lease.confirmCreated(sessionId)`: an empty id degrades to a bare
`finalize()` (the `if (!sessionId)` branch). -/
def confirmCreated (i : Nat) (sid : String) (now : Int) (s : LimiterState) : LimiterState :=
  if sid = "" then finalizeLease i none now s else finalizeLease i (some sid) now s

/-- `lease.cancel()`: `finalize()` with no session id. -/
def cancelLease (i : Nat) (now : Int) (s : LimiterState) : LimiterState :=
  finalizeLease i none now s

/-- `releaseActiveSession(sessionId)`: delete from the set and reprocess
the queue only when something was actually deleted. -/
def releaseActiveSession (sid : String) (now : Int) (s : LimiterState) : LimiterState :=
  if sid = "" then s
  else if sid ∈ s.activeSessionIds then
    processQueue now { s with activeSessionIds := s.activeSessionIds.erase sid }
  else s

/-- `registerActiveSession(sessionId)` (out-of-band accounting). -/
def registerActiveSession (sid : String) (now : Int) (s : LimiterState) : LimiterState :=
  if sid = "" then s
  else processQueue now { s with activeSessionIds := insertSession sid s.activeSessionIds }

/-- The consumer-facing surface of a lease: exactly the two closures
`confirmCreated` and `cancel` returned by `createLease`. -/
inductive LeaseCall where
  | confirm (sid : String)
  | cancel
  deriving DecidableEq

def applyLeaseCall (i : Nat) (c : LeaseCall) (now : Int) (s : LimiterState) : LimiterState :=
  match c with
  | .confirm sid => confirmCreated i sid now s
  | .cancel => cancelLease i now s

/-- The event language of claim C1: `acquireLease` calls, lease
confirmation/cancellation, session release, and wake-ups of the rate
timer.  (`registerActiveSession` is out-of-band accounting and outside
the claim's quantification.) -/
inductive LeaseEvent where
  | acquire (source : String) (now : Int)
  | confirm (lease : Nat) (sessionId : String) (now : Int)
  | cancel (lease : Nat) (now : Int)
  | release (sessionId : String) (now : Int)
  | tick (now : Int)
  deriving DecidableEq

def stepLease (s : LimiterState) : LeaseEvent → LimiterState
  | .acquire src now => acquireCreateLease src now s
  | .confirm i sid now => confirmCreated i sid now s
  | .cancel i now => cancelLease i now s
  | .release sid now => releaseActiveSession sid now s
  | .tick now => processQueue now s

def initLimiter (maxPerMin maxConc : Nat) : LimiterState :=
  ⟨maxPerMin, maxConc, [], [], 0, [], []⟩

def runLimiter (maxPerMin maxConc : Nat) (evs : List LeaseEvent) : LimiterState :=
  evs.foldl stepLease (initLimiter maxPerMin maxConc)

/-- The two budgets of the Session Registry invariant. -/
def limiterOk (s : LimiterState) : Prop :=
  s.activeSessionIds.length + s.pendingReservations ≤ s.maxConcurrentSessions ∧
  s.createTimestamps.length ≤ s.maxCreatesPerMinute

/-- Auxiliary strengthening: `pendingReservations` counts exactly the
granted-but-unfinalized leases. -/
def limiterAux (s : LimiterState) : Prop :=
  limiterOk s ∧ s.pendingReservations = s.leases.count false

/-! ## Part 2: Protocol Bridge command/response correlation

`src/unnamed/part_002` (`useBrowserCDP`): the shared `messageIdRef`
counter, the `pendingRequestsRef` map, the `ws.onmessage` response
dispatch (identical in `connect` and `connectToPage`), and the
30-second command timeout of `send`. -/

structure CDPError where
  code : Int
  message : String
  deriving DecidableEq

/-- The wire message shape: `{id?, method?, params?, result?, error?}`.
`result` models the uninterpreted `Record<string, unknown>` payload as an
association list of strings. -/
structure CDPMessage where
  id : Option Nat
  method : Option String
  result : Option (List (String × String))
  error : Option CDPError
  deriving DecidableEq

/-- What settling a pending command looks like from the caller:
`resolve(message.result || {})` or `reject(new Error(...))`. -/
inductive CmdOutcome where
  | resolved (id : Nat) (result : List (String × String))
  | rejected (id : Nat) (message : String)
  deriving DecidableEq

def outcomeId : CmdOutcome → Nat
  | .resolved n _ => n
  | .rejected n _ => n

/-- The response branch of `ws.onmessage`:
`if (message.id !== undefined) { const pending = map.get(message.id);
if (pending) { map.delete(id); if (message.error) reject(error.message)
else resolve(result || {}) } }`.  The pending map is modelled by its key
list; an absent or unmatched id settles nothing. -/
def handleResponse (pending : List Nat) (msg : CDPMessage) :
    List Nat × Option CmdOutcome :=
  match msg.id with
  | none => (pending, none)
  | some n =>
    if n ∈ pending then
      (pending.erase n,
        some (match msg.error with
          | some e => CmdOutcome.rejected n e.message
          | none => CmdOutcome.resolved n (msg.result.getD [])))
    else (pending, none)

/-- Feed an incoming message stream through the response dispatcher,
collecting every settled outcome. -/
def runMessages (pending : List Nat) : List CDPMessage → List Nat × List CmdOutcome
  | [] => (pending, [])
  | m :: ms =>
    let p := handleResponse pending m
    let q := runMessages p.1 ms
    (q.1, p.2.toList ++ q.2)

/-- `setTimeout(..., 30000)` delay of `send`. -/
def commandTimeoutMs : Nat := 30000

/-- The timeout callback of `send`:
`if (map.has(id)) { map.delete(id); reject(new Error('CDP command timeout: ' + method)) }`. -/
def fireTimeout (pending : List Nat) (n : Nat) (method : String) :
    List Nat × Option CmdOutcome :=
  if n ∈ pending then
    (pending.erase n, some (.rejected n ("CDP command timeout: " ++ method)))
  else (pending, none)

/-- The shared command-id counter plus the pending key set of one bridge
instance (`messageIdRef`, `pendingRequestsRef`). -/
structure ControlConn where
  messageId : Nat
  pending : List Nat
  deriving DecidableEq

/-- The registration part of `send`: `const id = messageIdRef.current++;
pendingRequestsRef.current.set(id, {resolve, reject})`.  Returns the new
state and the id the outgoing command carries. -/
def sendCommand (st : ControlConn) : ControlConn × Nat :=
  ({ messageId := st.messageId + 1, pending := st.pending ++ [st.messageId] },
   st.messageId)

/-- The ids carried by `n` successive commands issued through the shared
counter. -/
def sendIds (st : ControlConn) : Nat → List Nat
  | 0 => []
  | n + 1 =>
    let p := sendCommand st
    p.2 :: sendIds p.1 n

/-- `connectToPage`'s `ws.onopen` handler uses a fresh per-connection
counter `let msgId = 1000` for its three setup commands
(`Page.enable`, `Runtime.enable`, `Runtime.addBinding`), independent of
`messageIdRef`. -/
def pageOpenMsgIdStart : Nat := 1000

def connectToPageOpenCmds : List (Nat × String) :=
  [(pageOpenMsgIdStart, "Page.enable"),
   (pageOpenMsgIdStart + 1, "Runtime.enable"),
   (pageOpenMsgIdStart + 2, "Runtime.addBinding")]

/-- The command ids put on the wire when two page connections open. -/
def twoPageOpenCmdIds : List Nat :=
  (connectToPageOpenCmds ++ connectToPageOpenCmds).map Prod.fst

/-! ## Part 3: Interaction Synthesizer

`src/unnamed/part_002`: `addInteraction`, `handleKeydown`, the click
branch of the `Runtime.bindingCalled` / screencast-message handlers. -/

inductive InteractionType where
  | user_event
  | tab_navigation
  | frame_navigation
  deriving DecidableEq

/-- The element descriptor `{tagName?, text?, selector?, href?, ...}`
(free-form extra attributes are uninterpreted pass-through, not modelled). -/
structure SynthElement where
  tagName : Option String
  text : Option String
  selector : Option String
  href : Option String
  deriving DecidableEq

/-- One `Interaction` record.  The source id is the string
`` `${type}-${Date.now()}-${random}` ``, relied upon only for
uniqueness; it is modelled as a fresh counter value (`nextFresh` below).
`dataKind` models `data?.type` of the raw payload. -/
structure Interaction where
  id : Nat
  type : InteractionType
  timestamp : Int
  pageId : String
  element : SynthElement
  dataKind : Option String
  deriving DecidableEq

structure TypingBuffer where
  interactionId : Nat
  text : String
  lastTimestamp : Int
  selector : String
  deriving DecidableEq

/-- The synthesizer's mutable refs: `interactions`, `typingBufferRef`,
`lastClickTimestampRef` (init 0), `lastKeydownRef`,
`lastNavigationRefreshRef` (init 0), and the fresh-id counter. -/
structure SynthState where
  interactions : List Interaction
  typingBuffer : Option TypingBuffer
  lastClickTimestamp : Int
  lastKeydown : Option (String × Int)
  lastNavigationRefresh : Int
  nextFresh : Nat
  deriving DecidableEq

def emptySynth : SynthState := ⟨[], none, 0, none, 0, 0⟩

/-- `addInteraction(type, element, pageId, data)`: clears the typing
buffer, appends a freshly identified record (timestamp `Date.now()`).
The asynchronous screenshot crop only back-patches `screenshotUrl` and
is not modelled. -/
def addInteraction (type : InteractionType) (element : SynthElement)
    (pageId : String) (dataKind : Option String) (now : Int)
    (s : SynthState) : SynthState :=
  { s with
    typingBuffer := none
    interactions := s.interactions ++
      [⟨s.nextFresh, type, now, pageId, element, dataKind⟩]
    nextFresh := s.nextFresh + 1 }

/-- Keydown payload `{key, target, ctrlKey, altKey, metaKey}`. -/
structure KeydownEvent where
  key : String
  target : SynthElement
  ctrlKey : Bool
  altKey : Bool
  metaKey : Bool
  deriving DecidableEq

def skipKeys : List String := ["Shift", "Control", "Alt", "Meta", "CapsLock"]

/-- `const selector = target?.selector || 'unknown'` (the empty string is
falsy in JS). -/
def selectorOf (e : SynthElement) : String :=
  match e.selector with
  | some s => if s = "" then "unknown" else s
  | none => "unknown"

/-- The 50 ms same-key de-duplication test against `lastKeydownRef`. -/
def dedupHit (last : Option (String × Int)) (key : String) (now : Int) : Bool :=
  match last with
  | some (k, t) => k == key && decide (now - t < 50)
  | none => false

/-- `const char = key.length === 1 ? key : ` `` `[${key}]` ``. -/
def charOf (key : String) : String :=
  if key.length = 1 then key else "[" ++ key ++ "]"

/-- JS `text.endsWith(']')` on the character list of the buffer text. -/
def endsWithChar (c : Char) (l : List Char) : Bool :=
  match l.getLast? with
  | some x => x = c
  | none => false

/-- JS `text.lastIndexOf('[')` (`none` models -1). -/
def lastIndexOfChar (c : Char) : List Char → Option Nat
  | [] => none
  | x :: xs =>
    match lastIndexOfChar c xs with
    | some i => some (i + 1)
    | none => if x = c then some 0 else none

/-- The Backspace text edit: remove a whole `[...]` token (cut at the
last `[`) when the text ends with `]`, otherwise `slice(0, -1)`. -/
def backspaceText (t : String) : String :=
  if endsWithChar ']' t.data then
    match lastIndexOfChar '[' t.data with
    | some i => String.mk (t.data.take i)
    | none => String.mk t.data.dropLast
  else String.mk t.data.dropLast

/-- The in-place mutation of the buffered interaction:
`findIndex(i => i.id === id)` followed by an immutable update of
`timestamp` and `element.text` at that index (first match, no-op when
absent). -/
def updateById (iid : Nat) (now : Int) (newText : String) :
    List Interaction → List Interaction
  | [] => []
  | i :: rest =>
    if i.id = iid then
      { i with timestamp := now
               element := { i.element with text := some newText } } :: rest
    else i :: updateById iid now newText rest

/-- The modifier-combo label, e.g. `Ctrl+C`
(`modifiers.push(key.length === 1 ? key.toUpperCase() : key)`). -/
def comboString (evt : KeydownEvent) : String :=
  let mods := (if evt.ctrlKey then ["Ctrl"] else []) ++
              (if evt.altKey then ["Alt"] else []) ++
              (if evt.metaKey then ["Cmd"] else [])
  String.intercalate "+"
    (mods ++ [if evt.key.length = 1 then evt.key.toUpper else evt.key])

/-- The body of `handleKeydown` after the skip-list and 50 ms dedup
guards have passed and `lastKeydownRef` has been updated. -/
def acceptKeydown (evt : KeydownEvent) (now : Int) (pageId : String)
    (s : SynthState) : SynthState :=
  let selector := selectorOf evt.target
  if evt.ctrlKey || evt.altKey || evt.metaKey then
    { s with
      typingBuffer := none
      interactions := s.interactions ++
        [⟨s.nextFresh, .user_event, now, pageId,
          { evt.target with tagName := some "KEYPRESS", text := some (comboString evt) },
          some "keypress"⟩]
      nextFresh := s.nextFresh + 1 }
  else if evt.key = "Backspace" then
    match s.typingBuffer with
    | some b =>
      if b.selector = selector ∧ now - b.lastTimestamp < 3000 ∧ b.text ≠ "" then
        let newText := backspaceText b.text
        { s with
          typingBuffer := some { b with text := newText, lastTimestamp := now }
          interactions := updateById b.interactionId now newText s.interactions }
      else s
    | none => s
  else
    let char := charOf evt.key
    match s.typingBuffer with
    | some b =>
      if b.selector = selector ∧ now - b.lastTimestamp < 3000 then
        let newText := b.text ++ char
        { s with
          typingBuffer := some { b with text := newText, lastTimestamp := now }
          interactions := updateById b.interactionId now newText s.interactions }
      else
        { s with
          typingBuffer := some ⟨s.nextFresh, char, now, selector⟩
          interactions := s.interactions ++
            [⟨s.nextFresh, .user_event, now, pageId,
              { evt.target with text := some char }, some "keydown"⟩]
          nextFresh := s.nextFresh + 1 }
    | none =>
      { s with
        typingBuffer := some ⟨s.nextFresh, char, now, selector⟩
        interactions := s.interactions ++
          [⟨s.nextFresh, .user_event, now, pageId,
            { evt.target with text := some char }, some "keydown"⟩]
        nextFresh := s.nextFresh + 1 }

/-- `handleKeydown(eventData, pageId)` at time `now = Date.now()`. -/
def handleKeydown (evt : KeydownEvent) (now : Int) (pageId : String)
    (s : SynthState) : SynthState :=
  if evt.key ∈ skipKeys then s
  else if dedupHit s.lastKeydown evt.key now then s
  else acceptKeydown evt now pageId { s with lastKeydown := some (evt.key, now) }

def clickFallbackElement : SynthElement :=
  ⟨some "CLICK", some "click", some "unknown", none⟩

/-- The click branch of both event sources (`Runtime.bindingCalled` and
the screencast postMessage handler): drop within 100 ms of the previous
accepted click, otherwise record the click and add an interaction. -/
def handleClick (target : Option SynthElement) (now : Int) (pageId : String)
    (s : SynthState) : SynthState :=
  if now - s.lastClickTimestamp < 100 then s
  else
    addInteraction .user_event (target.getD clickFallbackElement) pageId
      (some "click") now { s with lastClickTimestamp := now }

/-- The main-frame `Page.frameNavigated` branch: ignore within 1000 ms of
the previous accepted navigation, otherwise record it and add a
`frame_navigation` interaction (the navigation raw payload has no `type`
field). -/
def handleFrameNavigated (url frameId : String) (now : Int) (pageId : String)
    (s : SynthState) : SynthState :=
  if now - s.lastNavigationRefresh > 1000 then
    addInteraction .frame_navigation
      ⟨some "FRAME_NAVIGATION", some ("Navigated to " ++ url), some frameId, some url⟩
      pageId none now { s with lastNavigationRefresh := now }
  else s

/-- A plain typing key: not a bare-modifier key and not Backspace. -/
def plainKey (k : String) : Prop := k ∉ skipKeys ∧ k ≠ "Backspace"

/-- Well-formed typing chain for the merge theorem: every key is plain,
every event is within the 3-second merge window of the previous one, and
a repetition of the previous key is at least 50 ms later (so the dedup
guard cannot drop it). -/
def goodChain (prevKey : String) (prevT : Int) : List (String × Int) → Prop
  | [] => True
  | (k, t) :: rest =>
    plainKey k ∧ (k = prevKey → 50 ≤ t - prevT) ∧ t - prevT < 3000 ∧
    goodChain k t rest

/-- Run a sequence of plain (modifier-free) keydowns on one target. -/
def runTyping (e : SynthElement) (pageId : String)
    (evs : List (String × Int)) (s : SynthState) : SynthState :=
  evs.foldl (fun st kt => handleKeydown ⟨kt.1, e, false, false, false⟩ kt.2 pageId st) s

/-- The text a chain of merged keydowns leaves in the buffer. -/
def typedFrom (acc : String) : List (String × Int) → String
  | [] => acc
  | (k, _) :: rest => typedFrom (acc ++ charOf k) rest

def lastTimeOf (d : Int) : List (String × Int) → Int
  | [] => d
  | (_, t) :: rest => lastTimeOf t rest

def lastKeyOf (d : String) : List (String × Int) → String
  | [] => d
  | (k, _) :: rest => lastKeyOf k rest

/-! ## Theorems: Session Admission Controller -/

theorem length_pruneCreateTimestamps_le (c : Int) (l : List Int) :
    (pruneCreateTimestamps c l).length ≤ l.length := by
  induction l with
  | nil => exact Nat.le_refl _
  | cons t rest ih =>
    simp only [pruneCreateTimestamps]
    split
    · exact Nat.le_trans ih (Nat.le_succ _)
    · exact Nat.le_refl _

theorem limiterAux_pruneState (now : Int) (s : LimiterState) (h : limiterAux s) :
    limiterAux (pruneState now s) := by
  obtain ⟨⟨h1, h2⟩, h3⟩ := h
  exact ⟨⟨h1, Nat.le_trans (length_pruneCreateTimestamps_le _ _) h2⟩, h3⟩

theorem canGrantNextLease_fst (now : Int) (s : LimiterState) :
    (canGrantNextLease now s).1 = pruneState now s := rfl

theorem limiterAux_processLoop (fuel : Nat) :
    ∀ (now : Int) (s : LimiterState), limiterAux s → limiterAux (processLoop fuel now s) := by
  induction fuel with
  | zero => exact fun _ _ h => h
  | succ n ih =>
    intro now s h
    have hp := limiterAux_pruneState now s h
    rcases hq : s.queue with _ | ⟨src, rest⟩ <;> simp only [processLoop, hq]
    · exact h
    · by_cases hok : (canGrantNextLease now s).2 = true
      · rw [if_pos hok]
        apply ih
        have hok' : (decide ((pruneState now s).createTimestamps.length <
              (pruneState now s).maxCreatesPerMinute) &&
            hasConcurrentCapacity (pruneState now s)) = true := hok
        rw [Bool.and_eq_true, decide_eq_true_eq] at hok'
        obtain ⟨hrate, hconc⟩ := hok'
        simp only [hasConcurrentCapacity, decide_eq_true_eq] at hconc
        obtain ⟨⟨ha1, _⟩, ha3⟩ := hp
        rw [canGrantNextLease_fst]
        refine ⟨⟨?_, ?_⟩, ?_⟩
        · show (pruneState now s).activeSessionIds.length +
            ((pruneState now s).pendingReservations + 1) ≤
            (pruneState now s).maxConcurrentSessions
          omega
        · show ((pruneState now s).createTimestamps ++ [now]).length ≤
            (pruneState now s).maxCreatesPerMinute
          rw [List.length_append]
          simpa using hrate
        · show (pruneState now s).pendingReservations + 1 =
            ((pruneState now s).leases ++ [false]).count false
          rw [List.count_append]
          simpa using ha3
      · rw [if_neg hok, canGrantNextLease_fst]
        exact hp

theorem limiterAux_processQueue (now : Int) (s : LimiterState) (h : limiterAux s) :
    limiterAux (processQueue now s) :=
  limiterAux_processLoop _ now _ (limiterAux_pruneState now s h)

theorem length_insertSession_le (sid : String) (l : List String) :
    (insertSession sid l).length ≤ l.length + 1 := by
  unfold insertSession
  split
  · exact Nat.le_succ _
  · simp

theorem limiterAux_finalizeLease (i : Nat) (arg : Option String) (now : Int)
    (s : LimiterState) (h : limiterAux s) :
    limiterAux (finalizeLease i arg now s) := by
  obtain ⟨⟨h1, h2⟩, h3⟩ := h
  unfold finalizeLease
  rcases hg : s.leases[i]? with _ | b
  · exact ⟨⟨h1, h2⟩, h3⟩
  · cases b
    case true => exact ⟨⟨h1, h2⟩, h3⟩
    case false =>
      obtain ⟨hlt, hgeq⟩ := List.getElem?_eq_some.mp hg
      have hmem : false ∈ s.leases := hgeq ▸ List.getElem_mem hlt
      have hcount : 0 < s.leases.count false := List.count_pos_iff.mpr hmem
      have hset : (s.leases.set i true).count false = s.leases.count false - 1 := by
        have hcs := List.count_set true false s.leases i hlt
        rw [hgeq] at hcs
        simpa using hcs
      cases arg with
      | none =>
        apply limiterAux_processQueue
        refine ⟨⟨?_, h2⟩, ?_⟩
        · show s.activeSessionIds.length + (s.pendingReservations - 1) ≤
            s.maxConcurrentSessions
          omega
        · show s.pendingReservations - 1 = (s.leases.set i true).count false
          omega
      | some sid =>
        apply limiterAux_processQueue
        refine ⟨⟨?_, h2⟩, ?_⟩
        · show (insertSession sid s.activeSessionIds).length +
            (s.pendingReservations - 1) ≤ s.maxConcurrentSessions
          have := length_insertSession_le sid s.activeSessionIds
          omega
        · show s.pendingReservations - 1 = (s.leases.set i true).count false
          omega

theorem limiterAux_stepLease (s : LimiterState) (ev : LeaseEvent) (h : limiterAux s) :
    limiterAux (stepLease s ev) := by
  cases ev with
  | acquire src now => exact limiterAux_processQueue now _ h
  | confirm i sid now =>
    show limiterAux (confirmCreated i sid now s)
    unfold confirmCreated
    split <;> exact limiterAux_finalizeLease _ _ _ _ h
  | cancel i now => exact limiterAux_finalizeLease _ _ _ _ h
  | release sid now =>
    show limiterAux (releaseActiveSession sid now s)
    unfold releaseActiveSession
    obtain ⟨⟨h1, h2⟩, h3⟩ := h
    split
    · exact ⟨⟨h1, h2⟩, h3⟩
    · split
      · apply limiterAux_processQueue
        refine ⟨⟨?_, h2⟩, h3⟩
        show (s.activeSessionIds.erase sid).length + s.pendingReservations ≤
          s.maxConcurrentSessions
        have := List.length_erase_le sid s.activeSessionIds
        omega
      · exact ⟨⟨h1, h2⟩, h3⟩
  | tick now => exact limiterAux_processQueue now _ h

theorem limiterAux_foldl (evs : List LeaseEvent) :
    ∀ s : LimiterState, limiterAux s → limiterAux (evs.foldl stepLease s) := by
  induction evs with
  | nil => exact fun _ h => h
  | cons e rest ih => exact fun s h => ih _ (limiterAux_stepLease s e h)

/-- Claim C1: over every sequence of `acquireLease` calls with later
confirmations/cancellations (plus releases and rate-timer wake-ups), the
admission budgets are respected at every point in the run: the active
session count plus pending reservations never exceeds
`maxConcurrentSessions`, and the pruned 60-second creation window never
holds more than `maxCreatesPerMinute` entries.  Every prefix of an event
list is itself an event list, so this bounds every intermediate state. -/
theorem admission_budgets_never_exceeded (maxPerMin maxConc : Nat)
    (evs : List LeaseEvent) :
    limiterOk (runLimiter maxPerMin maxConc evs) :=
  (limiterAux_foldl evs (initLimiter maxPerMin maxConc)
    ⟨⟨Nat.zero_le _, Nat.zero_le _⟩, rfl⟩).1

theorem processLoop_leases_getElem? (fuel : Nat) :
    ∀ (now : Int) (s : LimiterState) (i : Nat), i < s.leases.length →
      (processLoop fuel now s).leases[i]? = s.leases[i]? := by
  induction fuel with
  | zero => intro _ _ _ _; rfl
  | succ n ih =>
    intro now s i hi
    rcases hq : s.queue with _ | ⟨src, rest⟩ <;> simp only [processLoop, hq]
    by_cases hok : (canGrantNextLease now s).2 = true
    · rw [if_pos hok, canGrantNextLease_fst]
      rw [ih]
      · show (s.leases ++ [false])[i]? = s.leases[i]?
        rw [List.getElem?_append, if_pos hi]
      · show i < (s.leases ++ [false]).length
        rw [List.length_append]
        omega
    · rw [if_neg hok, canGrantNextLease_fst]
      rfl

theorem processQueue_leases_getElem? (now : Int) (s : LimiterState) (i : Nat)
    (hi : i < s.leases.length) :
    (processQueue now s).leases[i]? = s.leases[i]? :=
  processLoop_leases_getElem? _ now (pruneState now s) i hi

theorem finalizeLease_already_finalized (i : Nat) (arg : Option String) (now : Int)
    (s : LimiterState) (h : s.leases[i]? ≠ some false) :
    finalizeLease i arg now s = s := by
  unfold finalizeLease
  rcases hg : s.leases[i]? with _ | b
  · rfl
  · cases b
    case false => exact absurd hg h
    case true => rfl

theorem finalizeLease_leases_getElem?_true (i : Nat) (arg : Option String) (t1 : Int)
    (s : LimiterState) (hg : s.leases[i]? = some false) :
    (finalizeLease i arg t1 s).leases[i]? = some true := by
  have hlt : i < s.leases.length := (List.getElem?_eq_some.mp hg).1
  unfold finalizeLease
  rw [hg]
  cases arg with
  | none =>
    rw [processQueue_leases_getElem?]
    · exact List.getElem?_set_eq_of_lt true (by simpa using hlt)
    · simpa using hlt
  | some sid =>
    rw [processQueue_leases_getElem?]
    · exact List.getElem?_set_eq_of_lt true (by simpa using hlt)
    · simpa using hlt

theorem finalizeLease_idem (i : Nat) (a b : Option String) (t1 t2 : Int)
    (s : LimiterState) :
    finalizeLease i b t2 (finalizeLease i a t1 s) = finalizeLease i a t1 s := by
  rcases hg : s.leases[i]? with _ | fb
  · rw [finalizeLease_already_finalized i a t1 s (by simp [hg])]
    exact finalizeLease_already_finalized i b t2 s (by simp [hg])
  · cases fb
    case false =>
      have hafter := finalizeLease_leases_getElem?_true i a t1 s hg
      exact finalizeLease_already_finalized i b t2 _ (by simp [hafter])
    case true =>
      rw [finalizeLease_already_finalized i a t1 s (by simp [hg])]
      exact finalizeLease_already_finalized i b t2 s (by simp [hg])

/-- Claim C6: a second `confirmCreated`/`cancel` on the same lease — in
either order, with any arguments and at any later time — leaves the
limiter state (pending counter, active-session set, queue, window,
lease flags) exactly as the first call left it; by induction the same
holds for any number of repetitions, so repeated finalization is
observably a single finalization. -/
theorem lease_finalization_idempotent (s : LimiterState) (i : Nat)
    (c1 c2 : LeaseCall) (t1 t2 : Int) :
    applyLeaseCall i c2 t2 (applyLeaseCall i c1 t1 s) = applyLeaseCall i c1 t1 s := by
  cases c1 <;> cases c2 <;>
    simp only [applyLeaseCall, confirmCreated, cancelLease] <;>
    (try split) <;> (try split) <;>
    exact finalizeLease_idem _ _ _ _ _ _

/-- Counterexample to claim C4 as stated: with `maxConcurrentSessions = 1`
and two queued `acquireLease` requests, confirming the first lease with a
session id does NOT grant the second lease — the confirmed session now
occupies the single concurrency slot, so the second request stays queued
(`queue = ["B"]`) and no second lease is ever created (`leases = [true]`).
The claim asserts the second lease is granted once the first is confirmed
or cancelled. -/
theorem confirm_does_not_grant_second_lease :
    (runLimiter 20 1 [.acquire "A" 0, .acquire "B" 1,
        .confirm 0 "sess" 2]).queue = ["B"] ∧
    (runLimiter 20 1 [.acquire "A" 0, .acquire "B" 1,
        .confirm 0 "sess" 2]).leases = [true] ∧
    (runLimiter 20 1 [.acquire "A" 0, .acquire "B" 1,
        .confirm 0 "sess" 2]).pendingReservations = 0 := by
  decide

/-- Claim C4 (amended): with `maxConcurrentSessions = 1`, after two
`acquireLease` calls the second lease is not granted while the first is
outstanding; it is granted once the first lease is cancelled.  If the
first lease is instead confirmed with a session id, the second stays
queued until that active session is released, and is granted then. -/
theorem second_lease_waits_for_capacity :
    (runLimiter 20 1 [.acquire "A" 0, .acquire "B" 1]).queue = ["B"] ∧
    (runLimiter 20 1 [.acquire "A" 0, .acquire "B" 1]).leases = [false] ∧
    (runLimiter 20 1 [.acquire "A" 0, .acquire "B" 1, .cancel 0 2]).queue = [] ∧
    (runLimiter 20 1 [.acquire "A" 0, .acquire "B" 1, .cancel 0 2]).leases
      = [true, false] ∧
    (runLimiter 20 1 [.acquire "A" 0, .acquire "B" 1,
        .confirm 0 "sess" 2]).queue = ["B"] ∧
    (runLimiter 20 1 [.acquire "A" 0, .acquire "B" 1, .confirm 0 "sess" 2,
        .release "sess" 3]).queue = [] ∧
    (runLimiter 20 1 [.acquire "A" 0, .acquire "B" 1, .confirm 0 "sess" 2,
        .release "sess" 3]).leases = [true, false] := by
  decide

/-! ## Theorems: Protocol Bridge correlation, timeout, command ids -/

theorem runMessages_not_touching (msgs : List CDPMessage) :
    ∀ (pending : List Nat) (N : Nat), N ∈ pending →
      some N ∉ msgs.map CDPMessage.id →
      N ∈ (runMessages pending msgs).1 ∧
      N ∉ (runMessages pending msgs).2.map outcomeId := by
  induction msgs with
  | nil => intro pending N hN _; exact ⟨hN, by simp [runMessages]⟩
  | cons m ms ih =>
    intro pending N hN hno
    rw [List.map_cons, List.mem_cons] at hno
    push_neg at hno
    obtain ⟨hm, hms⟩ := hno
    rcases hid : m.id with _ | n
    · have hr : handleResponse pending m = (pending, none) := by
        simp [handleResponse, hid]
      obtain ⟨ih1, ih2⟩ := ih pending N hN hms
      exact ⟨by simpa [runMessages, hr] using ih1, by simpa [runMessages, hr] using ih2⟩
    · have hne : N ≠ n := fun h => hm (by rw [hid, h])
      by_cases hmem : n ∈ pending
      · have hNe : N ∈ pending.erase n := (List.mem_erase_of_ne hne).mpr hN
        obtain ⟨ih1, ih2⟩ := ih (pending.erase n) N hNe hms
        rcases herr : m.error with _ | e
        · have hr : handleResponse pending m =
              (pending.erase n, some (.resolved n (m.result.getD []))) := by
            simp [handleResponse, hid, herr, hmem]
          refine ⟨by simpa [runMessages, hr] using ih1, ?_⟩
          have h2' := ih2
          simp only [runMessages, hr] at h2' ⊢
          simp [outcomeId] at h2' ⊢
          exact ⟨hne, h2'⟩
        · have hr : handleResponse pending m =
              (pending.erase n, some (.rejected n e.message)) := by
            simp [handleResponse, hid, herr, hmem]
          refine ⟨by simpa [runMessages, hr] using ih1, ?_⟩
          have h2' := ih2
          simp only [runMessages, hr] at h2' ⊢
          simp [outcomeId] at h2' ⊢
          exact ⟨hne, h2'⟩
      · have hr : handleResponse pending m = (pending, none) := by
          simp [handleResponse, hid, hmem]
        obtain ⟨ih1, ih2⟩ := ih pending N hN hms
        exact ⟨by simpa [runMessages, hr] using ih1, by simpa [runMessages, hr] using ih2⟩

theorem handleResponse_fst_nodup (pending : List Nat) (m : CDPMessage)
    (h : pending.Nodup) : (handleResponse pending m).1.Nodup := by
  unfold handleResponse
  rcases m.id with _ | n
  · exact h
  · by_cases hmem : n ∈ pending
    · simpa [hmem] using h.erase n
    · simpa [hmem] using h

theorem runMessages_nodup (msgs : List CDPMessage) :
    ∀ pending : List Nat, pending.Nodup → (runMessages pending msgs).1.Nodup := by
  induction msgs with
  | nil => exact fun _ h => h
  | cons m ms ih =>
    intro pending h
    exact ih (handleResponse pending m).1 (handleResponse_fst_nodup pending m h)

/-- Claim C2: with command `N` pending, any interleaving of unsolicited
events and responses for other ids leaves `N` pending and settles
nothing for `N`; the response carrying id `N` then settles exactly the
pending command with id `N` — resolving it with its `result` payload, or
rejecting it when an `error` field is present — and removes it from the
pending map.  Correlation is purely by id: the interleaved traffic
(arbitrary in content and length) cannot redirect or consume it. -/
theorem response_correlation (pending : List Nat) (others : List CDPMessage)
    (msg : CDPMessage) (N : Nat)
    (hnd : pending.Nodup) (hN : N ∈ pending)
    (hothers : some N ∉ others.map CDPMessage.id) (hmsg : msg.id = some N) :
    N ∈ (runMessages pending others).1 ∧
    N ∉ (runMessages pending others).2.map outcomeId ∧
    handleResponse (runMessages pending others).1 msg =
      ((runMessages pending others).1.erase N,
        some (match msg.error with
          | some e => CmdOutcome.rejected N e.message
          | none => CmdOutcome.resolved N (msg.result.getD []))) ∧
    N ∉ (runMessages pending others).1.erase N := by
  obtain ⟨h1, h2⟩ := runMessages_not_touching others pending N hN hothers
  have hnd1 : (runMessages pending others).1.Nodup := runMessages_nodup others pending hnd
  refine ⟨h1, h2, ?_, hnd1.not_mem_erase⟩
  simp [handleResponse, hmsg, h1]

/-- Witness for C2, realizing the spec's concrete scenario: command 7 is
pending, an unsolicited event, a response for pending command 3 and a
stray response for id 99 arrive first, then `{id:7, result:{frameId:"f1"}}`
resolves exactly command 7 with that payload. -/
theorem response_correlation_witness :
    7 ∈ (runMessages [7, 3]
      [⟨none, some "Runtime.bindingCalled", none, none⟩,
       ⟨some 3, none, some [("ok", "1")], none⟩,
       ⟨some 99, none, none, none⟩]).1 ∧
    7 ∉ (runMessages [7, 3]
      [⟨none, some "Runtime.bindingCalled", none, none⟩,
       ⟨some 3, none, some [("ok", "1")], none⟩,
       ⟨some 99, none, none, none⟩]).2.map outcomeId ∧
    handleResponse (runMessages [7, 3]
      [⟨none, some "Runtime.bindingCalled", none, none⟩,
       ⟨some 3, none, some [("ok", "1")], none⟩,
       ⟨some 99, none, none, none⟩]).1
      ⟨some 7, none, some [("frameId", "f1")], none⟩ =
      ((runMessages [7, 3]
        [⟨none, some "Runtime.bindingCalled", none, none⟩,
         ⟨some 3, none, some [("ok", "1")], none⟩,
         ⟨some 99, none, none, none⟩]).1.erase 7,
        some (CmdOutcome.resolved 7 [("frameId", "f1")])) ∧
    7 ∉ (runMessages [7, 3]
      [⟨none, some "Runtime.bindingCalled", none, none⟩,
       ⟨some 3, none, some [("ok", "1")], none⟩,
       ⟨some 99, none, none, none⟩]).1.erase 7 :=
  response_correlation [7, 3]
    [⟨none, some "Runtime.bindingCalled", none, none⟩,
     ⟨some 3, none, some [("ok", "1")], none⟩,
     ⟨some 99, none, none, none⟩]
    ⟨some 7, none, some [("frameId", "f1")], none⟩ 7
    (by decide) (by decide) (by decide) rfl

/-- Claim C3: the 30-second timeout callback of a pending command `N`
rejects it exactly once and removes it from the pending set; a second
firing is a no-op, and a response for id `N` arriving after the timeout
finds no pending entry and settles nothing. -/
theorem command_timeout_once (pending : List Nat) (N : Nat) (method : String)
    (msg : CDPMessage) (hnd : pending.Nodup) (hN : N ∈ pending)
    (hmsg : msg.id = some N) :
    commandTimeoutMs = 30000 ∧
    fireTimeout pending N method =
      (pending.erase N,
        some (.rejected N ("CDP command timeout: " ++ method))) ∧
    N ∉ pending.erase N ∧
    fireTimeout (pending.erase N) N method = (pending.erase N, none) ∧
    handleResponse (pending.erase N) msg = (pending.erase N, none) := by
  have hnm : N ∉ pending.erase N := hnd.not_mem_erase
  refine ⟨rfl, ?_, hnm, ?_, ?_⟩
  · simp [fireTimeout, hN]
  · simp [fireTimeout, hnm]
  · simp [handleResponse, hmsg, hnm]

/-- Witness for C3: command 5 pending alongside 9; its timeout fires,
rejects once and removes it; a repeat firing and a late response for id 5
are both no-ops. -/
theorem command_timeout_once_witness :
    commandTimeoutMs = 30000 ∧
    fireTimeout [5, 9] 5 "Page.navigate" =
      ([5, 9].erase 5,
        some (.rejected 5 ("CDP command timeout: " ++ "Page.navigate"))) ∧
    5 ∉ [5, 9].erase 5 ∧
    fireTimeout ([5, 9].erase 5) 5 "Page.navigate" = ([5, 9].erase 5, none) ∧
    handleResponse ([5, 9].erase 5) ⟨some 5, none, some [], none⟩ =
      ([5, 9].erase 5, none) :=
  command_timeout_once [5, 9] 5 "Page.navigate" ⟨some 5, none, some [], none⟩
    (by decide) (by decide) rfl

/-- Counterexample to claim C5 as stated: the three setup commands sent in
`connectToPage`'s `onopen` draw ids from a per-connection counter that
starts at 1000, so opening two page connections puts six commands on the
wire whose ids are `[1000, 1001, 1002, 1000, 1001, 1002]` — neither
unique nor monotonically increasing across the bridge's connections, and
the two `Page.enable` commands can be in flight simultaneously with the
same id. -/
theorem page_setup_command_ids_collide :
    twoPageOpenCmdIds = [1000, 1001, 1002, 1000, 1001, 1002] ∧
    ¬ twoPageOpenCmdIds.Nodup ∧
    ¬ List.Chain' (· < ·) twoPageOpenCmdIds := by
  refine ⟨rfl, by decide, ?_⟩
  intro h
  rw [show twoPageOpenCmdIds = [1000, 1001, 1002, 1000, 1001, 1002] from rfl,
    List.chain'_iff_pairwise] at h
  have h1 := (List.pairwise_cons.mp h).2
  have h2 := (List.pairwise_cons.mp h1).2
  have h3 := (List.pairwise_cons.mp h2).1 1000 (by simp)
  omega

theorem sendIds_eq (n : Nat) :
    ∀ st : ControlConn, sendIds st n = (List.range n).map (fun k => st.messageId + k) := by
  induction n with
  | zero => intro st; rfl
  | succ m ih =>
    intro st
    show st.messageId :: sendIds ⟨st.messageId + 1, st.pending ++ [st.messageId]⟩ m =
      (List.range (m + 1)).map (fun k => st.messageId + k)
    rw [ih, List.range_succ_eq_map]
    simp only [List.map_cons, Nat.add_zero, List.map_map]
    refine congrArg _ ?_
    refine List.map_congr_left ?_
    intro a _
    show st.messageId + 1 + a = st.messageId + (a + 1)
    omega

/-- Claim C5 (amended): every command that draws its id from the shared
`messageIdRef` counter (`send`, `sendToPage`, keep-alives, enrichment
queries, target discovery) gets a strictly larger id than every earlier
such command, so no two of them ever share an id; only the three
per-connection setup commands of `connectToPage`'s `onopen` use a
separate counter fixed at 1000 and fall outside this guarantee. -/
theorem shared_counter_ids_strictly_increasing (st : ControlConn) (n : Nat) :
    List.Chain' (· < ·) (sendIds st n) ∧ (sendIds st n).Nodup := by
  rw [sendIds_eq n st]
  constructor
  · rw [List.chain'_iff_pairwise]
    refine List.Pairwise.map _ ?_ (List.pairwise_lt_range n)
    intro a b h
    omega
  · refine List.Nodup.map ?_ (List.nodup_range n)
    exact fun a b h => Nat.add_left_cancel h

/-! ## Theorems: Interaction Synthesizer -/

theorem updateById_split (iid : Nat) (now : Int) (txt : String)
    (pre : List Interaction) (I : Interaction) (post : List Interaction)
    (hpre : iid ∉ pre.map Interaction.id) (hI : I.id = iid) :
    updateById iid now txt (pre ++ I :: post) =
      pre ++
        ({ I with
            timestamp := now,
            element := { I.element with text := some txt } }) :: post := by
  induction pre with
  | nil => simp [updateById, hI]
  | cons p ps ih =>
    rw [List.map_cons, List.mem_cons] at hpre
    push_neg at hpre
    obtain ⟨hp, hps⟩ := hpre
    simp only [List.cons_append, updateById]
    rw [if_neg (fun h => hp h.symm)]
    exact congrArg (List.cons p) (ih hps)

theorem length_updateById (iid : Nat) (now : Int) (txt : String) :
    ∀ l : List Interaction, (updateById iid now txt l).length = l.length := by
  intro l
  induction l with
  | nil => rfl
  | cons i rest ih =>
    simp only [updateById]
    split
    · simp
    · simpa using ih

theorem handleKeydown_fresh (k : String) (e : SynthElement) (now : Int)
    (pid : String) (s : SynthState)
    (hb : s.typingBuffer = none) (hkey : plainKey k)
    (hdedup : dedupHit s.lastKeydown k now = false) :
    handleKeydown ⟨k, e, false, false, false⟩ now pid s =
      ({ s with
          lastKeydown := some (k, now),
          typingBuffer := some ⟨s.nextFresh, charOf k, now, selectorOf e⟩,
          interactions := s.interactions ++
            [⟨s.nextFresh, .user_event, now, pid,
              { e with text := some (charOf k) }, some "keydown"⟩],
          nextFresh := s.nextFresh + 1 }) := by
  obtain ⟨hskip, hbs⟩ := hkey
  obtain ⟨si, stb, slc, slk, sln, snf⟩ := s
  simp only [SynthState.typingBuffer] at hb
  subst hb
  unfold handleKeydown
  rw [if_neg hskip, if_neg (by rw [hdedup]; exact Bool.false_ne_true)]
  unfold acceptKeydown
  rw [if_neg (by simp), if_neg hbs]

theorem handleKeydown_merge (k : String) (e : SynthElement) (now : Int)
    (pid : String) (s : SynthState) (b : TypingBuffer)
    (hb : s.typingBuffer = some b) (hsel : b.selector = selectorOf e)
    (hkey : plainKey k) (hdedup : dedupHit s.lastKeydown k now = false)
    (hwin : now - b.lastTimestamp < 3000) :
    handleKeydown ⟨k, e, false, false, false⟩ now pid s =
      ({ s with
          lastKeydown := some (k, now),
          typingBuffer := some
            ({ b with
                text := b.text ++ charOf k,
                lastTimestamp := now }),
          interactions := updateById b.interactionId now (b.text ++ charOf k)
            s.interactions }) := by
  obtain ⟨hskip, hbs⟩ := hkey
  obtain ⟨si, stb, slc, slk, sln, snf⟩ := s
  simp only [SynthState.typingBuffer] at hb
  subst hb
  unfold handleKeydown
  rw [if_neg hskip, if_neg (by rw [hdedup]; exact Bool.false_ne_true)]
  unfold acceptKeydown
  rw [if_neg (by simp), if_neg hbs]
  dsimp only
  rw [if_pos ⟨hsel, hwin⟩]

theorem handleKeydown_newAfterGap (k : String) (e : SynthElement) (now : Int)
    (pid : String) (s : SynthState) (b : TypingBuffer)
    (hb : s.typingBuffer = some b) (hkey : plainKey k)
    (hdedup : dedupHit s.lastKeydown k now = false)
    (hgap : 3000 ≤ now - b.lastTimestamp) :
    handleKeydown ⟨k, e, false, false, false⟩ now pid s =
      ({ s with
          lastKeydown := some (k, now),
          typingBuffer := some ⟨s.nextFresh, charOf k, now, selectorOf e⟩,
          interactions := s.interactions ++
            [⟨s.nextFresh, .user_event, now, pid,
              { e with text := some (charOf k) }, some "keydown"⟩],
          nextFresh := s.nextFresh + 1 }) := by
  obtain ⟨hskip, hbs⟩ := hkey
  obtain ⟨si, stb, slc, slk, sln, snf⟩ := s
  simp only [SynthState.typingBuffer] at hb
  subst hb
  unfold handleKeydown
  rw [if_neg hskip, if_neg (by rw [hdedup]; exact Bool.false_ne_true)]
  unfold acceptKeydown
  rw [if_neg (by simp), if_neg hbs]
  dsimp only
  rw [if_neg (by rintro ⟨-, hlt⟩; omega)]

theorem handleKeydown_backspace_edit (e : SynthElement) (now : Int)
    (pid : String) (s : SynthState) (b : TypingBuffer)
    (pre : List Interaction) (I : Interaction) (post : List Interaction)
    (hb : s.typingBuffer = some b) (hsel : b.selector = selectorOf e)
    (hdedup : dedupHit s.lastKeydown "Backspace" now = false)
    (hwin : now - b.lastTimestamp < 3000) (hne : b.text ≠ "")
    (hsplit : s.interactions = pre ++ I :: post)
    (hIid : I.id = b.interactionId)
    (hpre : b.interactionId ∉ pre.map Interaction.id) :
    handleKeydown ⟨"Backspace", e, false, false, false⟩ now pid s =
      ({ s with
          lastKeydown := some ("Backspace", now),
          typingBuffer := some
            ({ b with
                text := backspaceText b.text,
                lastTimestamp := now }),
          interactions := pre ++
            ({ I with
                timestamp := now,
                element := { I.element with
                  text := some (backspaceText b.text) } }) :: post }) := by
  obtain ⟨si, stb, slc, slk, sln, snf⟩ := s
  simp only [SynthState.typingBuffer] at hb
  simp only [SynthState.interactions] at hsplit
  subst hb
  subst hsplit
  have hnskip : ("Backspace" : String) ∉ skipKeys := by decide
  unfold handleKeydown
  rw [if_neg hnskip, if_neg (by rw [hdedup]; exact Bool.false_ne_true)]
  unfold acceptKeydown
  rw [if_neg (by simp), if_pos rfl]
  dsimp only
  rw [if_pos ⟨hsel, hwin, hne⟩]
  rw [updateById_split b.interactionId now (backspaceText b.text) pre I post hpre hIid]

theorem handleKeydown_backspace_no_new_interaction (e : SynthElement)
    (now : Int) (pid : String) (s : SynthState) :
    (handleKeydown ⟨"Backspace", e, false, false, false⟩ now pid s).interactions.length
      = s.interactions.length := by
  have hnskip : ("Backspace" : String) ∉ skipKeys := by decide
  unfold handleKeydown
  rw [if_neg hnskip]
  split
  · rfl
  · unfold acceptKeydown
    rw [if_neg (by simp), if_pos rfl]
    obtain ⟨si, stb, slc, slk, sln, snf⟩ := s
    rcases stb with _ | b
    · rfl
    · dsimp only
      split
      · simpa using length_updateById _ _ _ si
      · rfl

theorem lastIndexOfChar_eq_none (c : Char) :
    ∀ l : List Char, c ∉ l → lastIndexOfChar c l = none := by
  intro l
  induction l with
  | nil => intro _; rfl
  | cons x xs ih =>
    intro h
    rw [List.mem_cons] at h
    push_neg at h
    obtain ⟨hx, hxs⟩ := h
    simp only [lastIndexOfChar, ih hxs]
    rw [if_neg (fun hc => hx hc.symm)]

theorem lastIndexOfChar_last_occurrence (c : Char) (w : List Char) (hw : c ∉ w) :
    ∀ u : List Char, lastIndexOfChar c (u ++ c :: w) = some u.length := by
  intro u
  induction u with
  | nil => simp [lastIndexOfChar, lastIndexOfChar_eq_none c w hw]
  | cons x xs ih => simp [lastIndexOfChar, ih]

/-- The claim's bracketed-token removal semantics: when the buffer text
ends with a complete bracketed token (a `[`, a token body free of `[`,
and the closing `]`), a Backspace removes the whole token as one unit. -/
theorem backspaceText_removes_bracket_token (u v : List Char) (hv : '[' ∉ v) :
    backspaceText (String.mk (u ++ '[' :: (v ++ [']']))) = String.mk u := by
  have hnv : '[' ∉ v ++ [']'] := by
    intro h
    rcases List.mem_append.mp h with h1 | h1
    · exact hv h1
    · simp at h1
  unfold backspaceText
  have hend : endsWithChar ']' (String.mk (u ++ '[' :: (v ++ [']']))).data = true := by
    show endsWithChar ']' (u ++ '[' :: (v ++ [']'])) = true
    have hre : u ++ '[' :: (v ++ [']']) = (u ++ '[' :: v) ++ [']'] := by simp
    rw [hre]
    unfold endsWithChar
    rw [List.getLast?_concat]
    simp
  rw [if_pos hend]
  show (match lastIndexOfChar '[' (u ++ '[' :: (v ++ [']'])) with
    | some i => String.mk ((u ++ '[' :: (v ++ [']'])).take i)
    | none => String.mk (u ++ '[' :: (v ++ [']'])).dropLast) = String.mk u
  rw [lastIndexOfChar_last_occurrence '[' (v ++ [']']) hnv u]
  simp

/-- The claim's one-character removal semantics: when the text does not
end with `]`, a Backspace removes exactly the final character. -/
theorem backspaceText_removes_one_char (u : List Char) (c : Char) (hc : c ≠ ']') :
    backspaceText (String.mk (u ++ [c])) = String.mk u := by
  unfold backspaceText
  have hend : endsWithChar ']' (String.mk (u ++ [c])).data = false := by
    show endsWithChar ']' (u ++ [c]) = false
    unfold endsWithChar
    rw [List.getLast?_concat]
    simpa using hc
  rw [if_neg (by rw [hend]; exact Bool.false_ne_true)]
  show String.mk (u ++ [c]).dropLast = String.mk u
  rw [List.dropLast_concat]

theorem runTyping_merge (evs : List (String × Int)) :
    ∀ (e : SynthElement) (pid : String) (s : SynthState) (b : TypingBuffer)
      (k0 : String) (pre : List Interaction) (I : Interaction),
      s.typingBuffer = some b →
      b.selector = selectorOf e →
      s.lastKeydown = some (k0, b.lastTimestamp) →
      s.interactions = pre ++ [I] →
      I.id = b.interactionId →
      I.timestamp = b.lastTimestamp →
      I.element.text = some b.text →
      b.interactionId ∉ pre.map Interaction.id →
      goodChain k0 b.lastTimestamp evs →
      runTyping e pid evs s =
        ({ s with
            interactions := pre ++
              [({ I with
                  timestamp := lastTimeOf b.lastTimestamp evs,
                  element := { I.element with
                    text := some (typedFrom b.text evs) } })],
            typingBuffer := some
              ({ b with
                  text := typedFrom b.text evs,
                  lastTimestamp := lastTimeOf b.lastTimestamp evs }),
            lastKeydown := some (lastKeyOf k0 evs, lastTimeOf b.lastTimestamp evs) }) := by
  induction evs with
  | nil =>
    intro e pid s b k0 pre I hb hsel hlk hints hIid hIts hItext hpre hch
    obtain ⟨si, stb, slc, slk, sln, snf⟩ := s
    obtain ⟨bi, bt, bl, bs⟩ := b
    obtain ⟨Ii, Ity, Its, Ipg, Iel, Idk⟩ := I
    obtain ⟨Iet, Iex, Ies, Ieh⟩ := Iel
    simp only [SynthState.typingBuffer] at hb
    simp only [SynthState.lastKeydown] at hlk
    simp only [SynthState.interactions] at hints
    simp only [Interaction.timestamp, TypingBuffer.lastTimestamp] at hIts
    simp only [Interaction.element, SynthElement.text, TypingBuffer.text] at hItext
    subst hb
    subst hlk
    subst hints
    subst hIts
    subst hItext
    rfl
  | cons kt rest ih =>
    obtain ⟨k, t⟩ := kt
    intro e pid s b k0 pre I hb hsel hlk hints hIid hIts hItext hpre hch
    obtain ⟨hplain, hrep, hwin, hch2⟩ := hch
    have hdedup : dedupHit s.lastKeydown k t = false := by
      rw [hlk]
      show (k0 == k && decide (t - b.lastTimestamp < 50)) = false
      by_cases hk : k0 = k
      · have h50 := hrep hk.symm
        have hd : decide (t - b.lastTimestamp < 50) = false := by
          rw [decide_eq_false_iff_not]
          omega
        rw [hd, Bool.and_false]
      · have hk2 : (k0 == k) = false := beq_eq_false_iff_ne.mpr hk
        rw [hk2, Bool.false_and]
    have hstep := handleKeydown_merge k e t pid s b hb hsel hplain hdedup hwin
    show runTyping e pid rest (handleKeydown ⟨k, e, false, false, false⟩ t pid s) = _
    rw [hstep, hints,
      updateById_split b.interactionId t (b.text ++ charOf k) pre I [] hpre hIid]
    rw [ih e pid
      ({ s with
          interactions := pre ++
            [({ I with
                timestamp := t,
                element := { I.element with text := some (b.text ++ charOf k) } })],
          typingBuffer := some
            (⟨b.interactionId, b.text ++ charOf k, t, b.selector⟩ : TypingBuffer),
          lastKeydown := some (k, t) })
      ⟨b.interactionId, b.text ++ charOf k, t, b.selector⟩ k pre
      ({ I with
          timestamp := t,
          element := { I.element with text := some (b.text ++ charOf k) } })
      rfl hsel rfl rfl hIid rfl rfl hpre hch2]
    rfl

/-- Counterexample to claim C7 as stated: the keys "h", "h" arrive 10 ms
apart on the same selector, both within the 3-second merge window, yet
the second is dropped by the 50 ms same-key keydown de-duplication, so
the single interaction's displayed text ends as "h" — the text does not
evolve by appending each key of the sequence (which would give "hh"). -/
theorem duplicate_key_within_50ms_not_appended :
    (runTyping ⟨none, none, some "q", none⟩ "p" [("h", 0), ("h", 10)]
        emptySynth).interactions.map (fun i => i.element.text) = [some "h"] ∧
    typedFrom (charOf "h") [("h", 10)] = "hh" ∧
    some "h" ≠ some "hh" := by
  refine ⟨by decide, by decide, by decide⟩

/-- Claim C7 (amended): a sequence of plain keydowns on one selector, each
within the 3-second merge window of the previous one and — when a key
repeats its predecessor — at least 50 ms after it (otherwise the keydown
dedup drops the repeat), produces exactly one interaction, whose text is
the keys appended in order; a further plain keydown arriving 3 seconds or
more after the last one starts a second interaction. -/
theorem typing_chain_merges_into_single_interaction
    (e : SynthElement) (pid k0 : String) (t0 : Int)
    (rest : List (String × Int)) (k1 : String) (t1 : Int)
    (h0 : plainKey k0) (hch : goodChain k0 t0 rest)
    (h1 : plainKey k1) (hgap : 3000 ≤ t1 - lastTimeOf t0 rest) :
    runTyping e pid ((k0, t0) :: rest) emptySynth =
      ⟨[⟨0, .user_event, lastTimeOf t0 rest, pid,
          { e with text := some (typedFrom (charOf k0) rest) }, some "keydown"⟩],
        some ⟨0, typedFrom (charOf k0) rest, lastTimeOf t0 rest, selectorOf e⟩,
        0, some (lastKeyOf k0 rest, lastTimeOf t0 rest), 0, 1⟩ ∧
    handleKeydown ⟨k1, e, false, false, false⟩ t1 pid
        (runTyping e pid ((k0, t0) :: rest) emptySynth) =
      ⟨[⟨0, .user_event, lastTimeOf t0 rest, pid,
          { e with text := some (typedFrom (charOf k0) rest) }, some "keydown"⟩,
        ⟨1, .user_event, t1, pid, { e with text := some (charOf k1) },
          some "keydown"⟩],
        some ⟨1, charOf k1, t1, selectorOf e⟩,
        0, some (k1, t1), 0, 2⟩ := by
  have hs1 := handleKeydown_fresh k0 e t0 pid emptySynth rfl h0 rfl
  have hfirst : runTyping e pid ((k0, t0) :: rest) emptySynth =
      ⟨[⟨0, .user_event, lastTimeOf t0 rest, pid,
          { e with text := some (typedFrom (charOf k0) rest) }, some "keydown"⟩,],
        some ⟨0, typedFrom (charOf k0) rest, lastTimeOf t0 rest, selectorOf e⟩,
        0, some (lastKeyOf k0 rest, lastTimeOf t0 rest), 0, 1⟩ := by
    show runTyping e pid rest
        (handleKeydown ⟨k0, e, false, false, false⟩ t0 pid emptySynth) = _
    rw [hs1]
    rw [runTyping_merge rest e pid _
      ⟨0, charOf k0, t0, selectorOf e⟩ k0 []
      ⟨0, .user_event, t0, pid, { e with text := some (charOf k0) }, some "keydown"⟩
      rfl rfl rfl rfl rfl rfl rfl (by simp) hch]
    rfl
  refine ⟨hfirst, ?_⟩
  rw [hfirst]
  have hdedup1 : dedupHit (some (lastKeyOf k0 rest, lastTimeOf t0 rest)) k1 t1
      = false := by
    show (lastKeyOf k0 rest == k1 && decide (t1 - lastTimeOf t0 rest < 50)) = false
    have hd : decide (t1 - lastTimeOf t0 rest < 50) = false := by
      rw [decide_eq_false_iff_not]
      omega
    rw [hd, Bool.and_false]
  have h2 := handleKeydown_newAfterGap k1 e t1 pid
    (⟨[⟨0, .user_event, lastTimeOf t0 rest, pid,
        { e with text := some (typedFrom (charOf k0) rest) }, some "keydown"⟩],
      some ⟨0, typedFrom (charOf k0) rest, lastTimeOf t0 rest, selectorOf e⟩,
      0, some (lastKeyOf k0 rest, lastTimeOf t0 rest), 0, 1⟩ : SynthState)
    ⟨0, typedFrom (charOf k0) rest, lastTimeOf t0 rest, selectorOf e⟩
    rfl h1 hdedup1 hgap
  rw [h2]
  rfl

/-- Witness for C7 (amended): typing "h","e","l","l","o" at 0, 10, 20,
100, 110 ms merges into one interaction whose text is "hello"; "!" after
a 4-second pause starts a second interaction with text "!". -/
theorem typing_chain_merges_witness :
    runTyping ⟨none, none, some "q", none⟩ "p"
        (("h", 0) :: [("e", 10), ("l", 20), ("l", 100), ("o", 110)]) emptySynth =
      ⟨[⟨0, .user_event,
          lastTimeOf 0 [("e", 10), ("l", 20), ("l", 100), ("o", 110)], "p",
          { (⟨none, none, some "q", none⟩ : SynthElement) with
              text := some (typedFrom (charOf "h")
                [("e", 10), ("l", 20), ("l", 100), ("o", 110)]) },
          some "keydown"⟩],
        some ⟨0,
          typedFrom (charOf "h") [("e", 10), ("l", 20), ("l", 100), ("o", 110)],
          lastTimeOf 0 [("e", 10), ("l", 20), ("l", 100), ("o", 110)],
          selectorOf ⟨none, none, some "q", none⟩⟩,
        0,
        some (lastKeyOf "h" [("e", 10), ("l", 20), ("l", 100), ("o", 110)],
          lastTimeOf 0 [("e", 10), ("l", 20), ("l", 100), ("o", 110)]),
        0, 1⟩ ∧
    handleKeydown ⟨"!", ⟨none, none, some "q", none⟩, false, false, false⟩ 4110 "p"
        (runTyping ⟨none, none, some "q", none⟩ "p"
          (("h", 0) :: [("e", 10), ("l", 20), ("l", 100), ("o", 110)]) emptySynth) =
      ⟨[⟨0, .user_event,
          lastTimeOf 0 [("e", 10), ("l", 20), ("l", 100), ("o", 110)], "p",
          { (⟨none, none, some "q", none⟩ : SynthElement) with
              text := some (typedFrom (charOf "h")
                [("e", 10), ("l", 20), ("l", 100), ("o", 110)]) },
          some "keydown"⟩,
        ⟨1, .user_event, 4110, "p",
          { (⟨none, none, some "q", none⟩ : SynthElement) with
              text := some (charOf "!") },
          some "keydown"⟩],
        some ⟨1, charOf "!", 4110, selectorOf ⟨none, none, some "q", none⟩⟩,
        0, some ("!", 4110), 0, 2⟩ :=
  typing_chain_merges_into_single_interaction
    ⟨none, none, some "q", none⟩ "p" "h" 0
    [("e", 10), ("l", 20), ("l", 100), ("o", 110)] "!" 4110
    (by simp only [plainKey]; decide)
    (by simp only [goodChain, plainKey]; decide)
    (by simp only [plainKey]; decide)
    (by decide)

theorem handleClick_drop (tgt : Option SynthElement) (now : Int) (pid : String)
    (s : SynthState) (h : now - s.lastClickTimestamp < 100) :
    handleClick tgt now pid s = s := by
  unfold handleClick
  rw [if_pos h]

theorem handleClick_accept (tgt : Option SynthElement) (now : Int) (pid : String)
    (s : SynthState) (h : 100 ≤ now - s.lastClickTimestamp) :
    handleClick tgt now pid s =
      addInteraction .user_event (tgt.getD clickFallbackElement) pid (some "click")
        now { s with lastClickTimestamp := now } := by
  unfold handleClick
  rw [if_neg (by omega)]

/-- Claim C9: once a click at `t1` is accepted (adding one interaction and
recording `t1` as the last accepted click), a second click arriving
within 100 ms of it is dropped outright — the state is unchanged and no
interaction is produced — while a second click arriving 150 ms or more
after it is accepted and produces its own interaction. -/
theorem click_dedup_window (s : SynthState) (tgt tgt2 : Option SynthElement)
    (t1 t2 : Int) (pid pid2 : String)
    (h1 : 100 ≤ t1 - s.lastClickTimestamp) :
    (handleClick tgt t1 pid s).interactions.length = s.interactions.length + 1 ∧
    (handleClick tgt t1 pid s).lastClickTimestamp = t1 ∧
    (t2 - t1 < 100 →
      handleClick tgt2 t2 pid2 (handleClick tgt t1 pid s) =
        handleClick tgt t1 pid s) ∧
    (150 ≤ t2 - t1 →
      (handleClick tgt2 t2 pid2 (handleClick tgt t1 pid s)).interactions.length =
        s.interactions.length + 2) := by
  have hs1 := handleClick_accept tgt t1 pid s h1
  have hlct : (handleClick tgt t1 pid s).lastClickTimestamp = t1 := by
    rw [hs1]
    rfl
  have hlen1 : (handleClick tgt t1 pid s).interactions.length =
      s.interactions.length + 1 := by
    rw [hs1]
    simp [addInteraction]
  refine ⟨hlen1, hlct, ?_, ?_⟩
  · intro hlt
    exact handleClick_drop tgt2 t2 pid2 _ (by rw [hlct]; omega)
  · intro hge
    have hs2 := handleClick_accept tgt2 t2 pid2 (handleClick tgt t1 pid s)
      (by rw [hlct]; omega)
    rw [hs2]
    simp only [addInteraction, List.length_append, List.length_cons, List.length_nil]
    have : ({ handleClick tgt t1 pid s with lastClickTimestamp := t2 }).interactions
        = (handleClick tgt t1 pid s).interactions := rfl
    rw [this, hlen1]

/-- Witness for C9: from a fresh synthesizer, a click at 1000 ms is
accepted; one at 1150 ms (150 ms later) is accepted too, giving two
interactions. -/
theorem click_dedup_window_witness :
    (handleClick (some ⟨none, none, some "q", none⟩) 1000 "p"
        emptySynth).interactions.length = emptySynth.interactions.length + 1 ∧
    (handleClick (some ⟨none, none, some "q", none⟩) 1000 "p"
        emptySynth).lastClickTimestamp = 1000 ∧
    ((1150 : Int) - 1000 < 100 →
      handleClick none 1150 "p2"
          (handleClick (some ⟨none, none, some "q", none⟩) 1000 "p" emptySynth) =
        handleClick (some ⟨none, none, some "q", none⟩) 1000 "p" emptySynth) ∧
    ((150 : Int) ≤ 1150 - 1000 →
      (handleClick none 1150 "p2"
          (handleClick (some ⟨none, none, some "q", none⟩) 1000 "p"
            emptySynth)).interactions.length =
        emptySynth.interactions.length + 2) :=
  click_dedup_window emptySynth (some ⟨none, none, some "q", none⟩) none
    1000 1150 "p" "p2" (by decide)

/-- Counterexample to claim C8 as stated: typing "a" at 0 ms and "b" at
100 ms builds the buffer "ab"; a Backspace at 200 ms edits it to "a";
a second Backspace at 230 ms — same selector, within the 3-second merge
window, buffer still non-empty — is dropped whole by the 50 ms same-key
keydown de-duplication: the state is a complete no-op and no unit is
removed (the text stays "a" instead of becoming ""), contradicting the
claim's unconditional "a Backspace ... removes the last appended unit". -/
theorem repeat_backspace_within_50ms_removes_nothing :
    (handleKeydown ⟨"Backspace", ⟨none, none, some "q", none⟩, false, false, false⟩
        200 "p"
        (handleKeydown ⟨"b", ⟨none, none, some "q", none⟩, false, false, false⟩
          100 "p"
          (handleKeydown ⟨"a", ⟨none, none, some "q", none⟩, false, false, false⟩
            0 "p" emptySynth))).typingBuffer = some ⟨0, "a", 200, "q"⟩ ∧
    handleKeydown ⟨"Backspace", ⟨none, none, some "q", none⟩, false, false, false⟩
        230 "p"
        (handleKeydown ⟨"Backspace", ⟨none, none, some "q", none⟩, false, false, false⟩
          200 "p"
          (handleKeydown ⟨"b", ⟨none, none, some "q", none⟩, false, false, false⟩
            100 "p"
            (handleKeydown ⟨"a", ⟨none, none, some "q", none⟩, false, false, false⟩
              0 "p" emptySynth))) =
      handleKeydown ⟨"Backspace", ⟨none, none, some "q", none⟩, false, false, false⟩
        200 "p"
        (handleKeydown ⟨"b", ⟨none, none, some "q", none⟩, false, false, false⟩
          100 "p"
          (handleKeydown ⟨"a", ⟨none, none, some "q", none⟩, false, false, false⟩
            0 "p" emptySynth)) ∧
    (handleKeydown ⟨"Backspace", ⟨none, none, some "q", none⟩, false, false, false⟩
        230 "p"
        (handleKeydown ⟨"Backspace", ⟨none, none, some "q", none⟩, false, false, false⟩
          200 "p"
          (handleKeydown ⟨"b", ⟨none, none, some "q", none⟩, false, false, false⟩
            100 "p"
            (handleKeydown ⟨"a", ⟨none, none, some "q", none⟩, false, false, false⟩
              0 "p" emptySynth)))).interactions.map (fun i => i.element.text) =
      [some "a"] := by
  refine ⟨by decide, by decide, by decide⟩

/-- Claim C8 (amended): a Backspace on the selector of the active typing
buffer, within the 3-second merge window, with a non-empty buffer and
passing the 50 ms same-key dedup (a Backspace within 50 ms of a previous
accepted Backspace is dropped whole), rewrites the same interaction in
place with `backspaceText` applied to the buffer text; `backspaceText`
removes a whole bracketed token as one unit when the text ends with one,
and exactly one character when the text does not end with `]`; and a
plain Backspace never adds an interaction, whatever the buffer state. -/
theorem backspace_edits_in_place
    (e : SynthElement) (now : Int) (pid : String) (s : SynthState)
    (b : TypingBuffer) (pre : List Interaction) (I : Interaction)
    (post : List Interaction) (u v : List Char) (c : Char)
    (s2 : SynthState) (e2 : SynthElement) (now2 : Int) (pid2 : String)
    (hb : s.typingBuffer = some b) (hsel : b.selector = selectorOf e)
    (hdedup : dedupHit s.lastKeydown "Backspace" now = false)
    (hwin : now - b.lastTimestamp < 3000) (hne : b.text ≠ "")
    (hsplit : s.interactions = pre ++ I :: post)
    (hIid : I.id = b.interactionId)
    (hpre : b.interactionId ∉ pre.map Interaction.id)
    (hv : '[' ∉ v) (hc : c ≠ ']') :
    handleKeydown ⟨"Backspace", e, false, false, false⟩ now pid s =
      ({ s with
          lastKeydown := some ("Backspace", now),
          typingBuffer := some
            ({ b with
                text := backspaceText b.text,
                lastTimestamp := now }),
          interactions := pre ++
            ({ I with
                timestamp := now,
                element := { I.element with
                  text := some (backspaceText b.text) } }) :: post }) ∧
    backspaceText (String.mk (u ++ '[' :: (v ++ [']']))) = String.mk u ∧
    backspaceText (String.mk (u ++ [c])) = String.mk u ∧
    (handleKeydown ⟨"Backspace", e2, false, false, false⟩ now2 pid2
        s2).interactions.length = s2.interactions.length :=
  ⟨handleKeydown_backspace_edit e now pid s b pre I post hb hsel hdedup hwin hne
      hsplit hIid hpre,
    backspaceText_removes_bracket_token u v hv,
    backspaceText_removes_one_char u c hc,
    handleKeydown_backspace_no_new_interaction e2 now2 pid2 s2⟩

/-- Witness for C8, realizing the spec's example: the buffer holds
"hi[Enter]"; a Backspace 80 ms later removes the bracketed token as one
unit, leaving "hi" in both the buffer and the interaction, and adds no
interaction. -/
theorem backspace_edits_in_place_witness :
    handleKeydown ⟨"Backspace", ⟨none, none, some "q", none⟩, false, false, false⟩
        100 "p"
        ⟨[⟨0, .user_event, 20, "p", ⟨none, some "hi[Enter]", some "q", none⟩,
            some "keydown"⟩],
          some ⟨0, "hi[Enter]", 20, "q"⟩, 0, some ("Enter", 20), 0, 1⟩ =
      ({ (⟨[⟨0, .user_event, 20, "p", ⟨none, some "hi[Enter]", some "q", none⟩,
            some "keydown"⟩],
          some ⟨0, "hi[Enter]", 20, "q"⟩, 0, some ("Enter", 20), 0, 1⟩ : SynthState) with
          lastKeydown := some ("Backspace", 100),
          typingBuffer := some
            ({ (⟨0, "hi[Enter]", 20, "q"⟩ : TypingBuffer) with
                text := backspaceText "hi[Enter]",
                lastTimestamp := 100 }),
          interactions := [] ++
            ({ (⟨0, .user_event, 20, "p", ⟨none, some "hi[Enter]", some "q", none⟩,
                  some "keydown"⟩ : Interaction) with
                timestamp := 100,
                element := { (⟨none, some "hi[Enter]", some "q", none⟩ : SynthElement) with
                  text := some (backspaceText "hi[Enter]") } }) :: [] }) ∧
    backspaceText (String.mk (['h', 'i'] ++ '[' ::
        (['E', 'n', 't', 'e', 'r'] ++ [']']))) = String.mk ['h', 'i'] ∧
    backspaceText (String.mk (['h', 'i'] ++ ['x'])) = String.mk ['h', 'i'] ∧
    (handleKeydown ⟨"Backspace", ⟨none, none, some "q", none⟩, false, false, false⟩
        0 "p" emptySynth).interactions.length = emptySynth.interactions.length :=
  backspace_edits_in_place
    ⟨none, none, some "q", none⟩ 100 "p"
    ⟨[⟨0, .user_event, 20, "p", ⟨none, some "hi[Enter]", some "q", none⟩,
        some "keydown"⟩],
      some ⟨0, "hi[Enter]", 20, "q"⟩, 0, some ("Enter", 20), 0, 1⟩
    ⟨0, "hi[Enter]", 20, "q"⟩ [] 
    ⟨0, .user_event, 20, "p", ⟨none, some "hi[Enter]", some "q", none⟩,
      some "keydown"⟩
    [] ['h', 'i'] ['E', 'n', 't', 'e', 'r'] 'x'
    emptySynth ⟨none, none, some "q", none⟩ 0 "p"
    rfl rfl rfl (by decide) (by decide) rfl rfl (by decide) (by decide) (by decide)

/-- Counterexample to claim C10 as stated: a keydown "h" at 1000 ms
starts a typing interaction; an accepted click at 1010 ms adds a second
interaction and clears the typing buffer; a plain keydown "h" at 1020 ms
on the same selector is then dropped whole by the 50 ms same-key keydown
dedup — it is a complete no-op and does NOT start a new typing
interaction, contradicting "the next plain keydown always starts a new
typing interaction". -/
theorem deduped_keydown_after_click_starts_nothing :
    handleKeydown ⟨"h", ⟨none, none, some "q", none⟩, false, false, false⟩ 1020 "p"
        (handleClick (some ⟨none, none, some "q", none⟩) 1010 "p"
          (handleKeydown ⟨"h", ⟨none, none, some "q", none⟩, false, false, false⟩
            1000 "p" emptySynth)) =
      handleClick (some ⟨none, none, some "q", none⟩) 1010 "p"
        (handleKeydown ⟨"h", ⟨none, none, some "q", none⟩, false, false, false⟩
          1000 "p" emptySynth) ∧
    (handleClick (some ⟨none, none, some "q", none⟩) 1010 "p"
        (handleKeydown ⟨"h", ⟨none, none, some "q", none⟩, false, false, false⟩
          1000 "p" emptySynth)).interactions.length = 2 ∧
    (handleClick (some ⟨none, none, some "q", none⟩) 1010 "p"
        (handleKeydown ⟨"h", ⟨none, none, some "q", none⟩, false, false, false⟩
          1000 "p" emptySynth)).typingBuffer = none := by
  refine ⟨by decide, by decide, by decide⟩

/-- Claim C10 (amended): every `addInteraction` call (including the ones
an accepted click or navigation performs) clears the typing buffer, so
the next plain keydown that passes the 50 ms same-key dedup always
starts a new typing interaction and a fresh buffer, even on the same
selector within the 3-second merge window; a keydown dropped by the
dedup guard, however, starts nothing. -/
theorem addInteraction_clears_typing_buffer
    (ty : InteractionType) (el : SynthElement) (pid : String)
    (dk : Option String) (now : Int) (s : SynthState)
    (k : String) (e : SynthElement) (now2 : Int) (pid2 : String)
    (hkey : plainKey k)
    (hdedup : dedupHit (addInteraction ty el pid dk now s).lastKeydown k now2
      = false) :
    (addInteraction ty el pid dk now s).typingBuffer = none ∧
    handleKeydown ⟨k, e, false, false, false⟩ now2 pid2
        (addInteraction ty el pid dk now s) =
      ({ addInteraction ty el pid dk now s with
          lastKeydown := some (k, now2),
          typingBuffer := some ⟨(addInteraction ty el pid dk now s).nextFresh,
            charOf k, now2, selectorOf e⟩,
          interactions := (addInteraction ty el pid dk now s).interactions ++
            [⟨(addInteraction ty el pid dk now s).nextFresh, .user_event, now2,
              pid2, { e with text := some (charOf k) }, some "keydown"⟩],
          nextFresh := (addInteraction ty el pid dk now s).nextFresh + 1 }) :=
  ⟨rfl, handleKeydown_fresh k e now2 pid2 (addInteraction ty el pid dk now s)
    rfl hkey hdedup⟩

/-- Witness for C10 (amended): after a click interaction at 1000 ms on a
fresh synthesizer, the buffer is clear and a keydown "h" at 1005 ms (no
prior keydown, so the dedup passes) starts a new typing interaction. -/
theorem addInteraction_clears_typing_buffer_witness :
    (addInteraction .user_event ⟨none, none, some "q", none⟩ "p" (some "click")
        1000 emptySynth).typingBuffer = none ∧
    handleKeydown ⟨"h", ⟨none, none, some "q", none⟩, false, false, false⟩ 1005 "p"
        (addInteraction .user_event ⟨none, none, some "q", none⟩ "p" (some "click")
          1000 emptySynth) =
      ({ addInteraction .user_event ⟨none, none, some "q", none⟩ "p" (some "click")
            1000 emptySynth with
          lastKeydown := some ("h", 1005),
          typingBuffer := some ⟨(addInteraction .user_event
              ⟨none, none, some "q", none⟩ "p" (some "click")
              1000 emptySynth).nextFresh, charOf "h", 1005,
            selectorOf ⟨none, none, some "q", none⟩⟩,
          interactions := (addInteraction .user_event ⟨none, none, some "q", none⟩
              "p" (some "click") 1000 emptySynth).interactions ++
            [⟨(addInteraction .user_event ⟨none, none, some "q", none⟩ "p"
                (some "click") 1000 emptySynth).nextFresh, .user_event, 1005, "p",
              { (⟨none, none, some "q", none⟩ : SynthElement) with
                text := some (charOf "h") }, some "keydown"⟩],
          nextFresh := (addInteraction .user_event ⟨none, none, some "q", none⟩
              "p" (some "click") 1000 emptySynth).nextFresh + 1 }) :=
  addInteraction_clears_typing_buffer .user_event ⟨none, none, some "q", none⟩
    "p" (some "click") 1000 emptySynth "h" ⟨none, none, some "q", none⟩ 1005 "p"
    (by simp only [plainKey]; decide) (by decide)

end Automated
